import Mathlib

/-!
Shallow embedding of the EQ response and blind-test evaluation core of the
eqapo-gui repository, together with theorems settling the specification
claims against it.

The filter mathematics (src/lib/audio-math.ts) is embedded over `ℝ`:
JavaScript `Math.cos`, `Math.sin`, `Math.sqrt`, `Math.pow`, `Math.log10`,
`Math.round` become `Real.cos`, `Real.sin`, `Real.sqrt`, `Real.rpow`,
`Real.logb 10` and `round`.  The `-Infinity` accumulator of
`calculatePeakGain` is modelled by `⊥ : EReal`.  The statistics documented
in src/unnamed/part_002 are embedded over `ℚ`, and the A/B session hook
(src/unnamed/part_006) as a pure state-transition function.
-/

/-- The three canonical filter types of src/lib/types.ts (`FilterType`). -/
inductive FilterType where
  | peaking
  | lowshelf
  | highshelf
deriving DecidableEq

/-- Model of `type.toLowerCase()`: per-character lowercasing of the string
(all filter-type strings involved are ASCII, where JavaScript's
`toLowerCase` acts exactly character by character). -/
def strToLower (s : String) : String := String.mk (s.data.map Char.toLower)

/-- `normalizeFilterType` from src/lib/audio-math.ts: lowercases the string,
maps the recognized aliases, and defaults everything else to `peaking`. -/
def normalizeFilterType (s : String) : FilterType :=
  let t := strToLower s
  if t = "peaking" ∨ t = "pk" ∨ t = "peq" then FilterType.peaking
  else if t = "lowshelf" ∨ t = "ls" ∨ t = "lsc" ∨ t = "low shelf" then FilterType.lowshelf
  else if t = "highshelf" ∨ t = "hs" ∨ t = "hsc" ∨ t = "high shelf" then FilterType.highshelf
  else FilterType.peaking

/-- `MIN_AUDIBLE_FREQUENCY_HZ` from src/lib/audio-math.ts. -/
noncomputable def MIN_AUDIBLE_FREQUENCY_HZ : ℝ := 20

/-- `MAX_AUDIBLE_FREQUENCY_HZ` from src/lib/audio-math.ts. -/
noncomputable def MAX_AUDIBLE_FREQUENCY_HZ : ℝ := 20000

/-- `FREQUENCY_GRAPH_POINTS` from src/lib/audio-math.ts. -/
def FREQUENCY_GRAPH_POINTS : ℕ := 200

/-- `DEFAULT_SAMPLE_RATE_HZ` from src/lib/audio-math.ts. -/
noncomputable def DEFAULT_SAMPLE_RATE_HZ : ℝ := 48000

/-- `DB_TO_LINEAR_DIVISOR` from src/lib/audio-math.ts. -/
noncomputable def DB_TO_LINEAR_DIVISOR : ℝ := 40

/-- `LOG_MIN_FREQUENCY = Math.log10(MIN_AUDIBLE_FREQUENCY_HZ)`. -/
noncomputable def LOG_MIN_FREQUENCY : ℝ := Real.logb 10 MIN_AUDIBLE_FREQUENCY_HZ

/-- `LOG_MAX_FREQUENCY = Math.log10(MAX_AUDIBLE_FREQUENCY_HZ)`. -/
noncomputable def LOG_MAX_FREQUENCY : ℝ := Real.logb 10 MAX_AUDIBLE_FREQUENCY_HZ

/-- The i-th grid frequency pushed by the `for` loop filling `FREQUENCIES`:
`Math.pow(10, LOG_MIN_FREQUENCY + (i / (FREQUENCY_GRAPH_POINTS - 1)) *
(LOG_MAX_FREQUENCY - LOG_MIN_FREQUENCY))`. -/
noncomputable def gridFreq (i : ℕ) : ℝ :=
  Real.rpow 10 (LOG_MIN_FREQUENCY +
    ((i : ℝ) / ((FREQUENCY_GRAPH_POINTS : ℝ) - 1)) * (LOG_MAX_FREQUENCY - LOG_MIN_FREQUENCY))

/-- `FREQUENCIES` from src/lib/audio-math.ts: the 200-point logarithmic grid. -/
noncomputable def FREQUENCIES : List ℝ :=
  (List.range FREQUENCY_GRAPH_POINTS).map gridFreq

/-- `const safeFc = Math.max(1, Math.min(fc, sampleRate / 2 - 1))`
(src/lib/audio-math.ts line 66). -/
noncomputable def safeFc (fc sampleRate : ℝ) : ℝ :=
  max 1 (min fc (sampleRate / 2 - 1))

/-- `const safeFreq = Math.max(0, Math.min(freq, sampleRate / 2))`
(src/lib/audio-math.ts line 67). -/
noncomputable def safeFreq (freq sampleRate : ℝ) : ℝ :=
  max 0 (min freq (sampleRate / 2))

/-- The six biquad coefficients `b0 b1 b2 a0 a1 a2` before normalization. -/
structure BiquadCoeffs where
  b0 : ℝ
  b1 : ℝ
  b2 : ℝ
  a0 : ℝ
  a1 : ℝ
  a2 : ℝ

/-- Coefficient computation of `calcBiquadMagnitudeDb`: the `peaking` branch
uses `alpha = sinW0 / (2 * q)`; the shelving branches floor `q` at `0.0001`,
map it to a slope `S = 1 / (2 * safeQ * safeQ)` and use the RBJ shelf alpha. -/
noncomputable def biquadCoeffs (w0 A q : ℝ) (ft : FilterType) : BiquadCoeffs :=
  let cosW0 := Real.cos w0
  let sinW0 := Real.sin w0
  match ft with
  | FilterType.peaking =>
    let alpha := sinW0 / (2 * q)
    ⟨1 + alpha * A, -2 * cosW0, 1 - alpha * A, 1 + alpha / A, -2 * cosW0, 1 - alpha / A⟩
  | FilterType.lowshelf =>
    let safeQ := max 0.0001 q
    let S := 1 / (2 * safeQ * safeQ)
    let alpha := (sinW0 / 2) * Real.sqrt ((A + 1 / A) * (1 / S - 1) + 2)
    let sqrtA := Real.sqrt A
    ⟨A * ((A + 1) - (A - 1) * cosW0 + 2 * sqrtA * alpha),
     2 * A * ((A - 1) - (A + 1) * cosW0),
     A * ((A + 1) - (A - 1) * cosW0 - 2 * sqrtA * alpha),
     (A + 1) + (A - 1) * cosW0 + 2 * sqrtA * alpha,
     -2 * ((A - 1) + (A + 1) * cosW0),
     (A + 1) + (A - 1) * cosW0 - 2 * sqrtA * alpha⟩
  | FilterType.highshelf =>
    let safeQ := max 0.0001 q
    let S := 1 / (2 * safeQ * safeQ)
    let alpha := (sinW0 / 2) * Real.sqrt ((A + 1 / A) * (1 / S - 1) + 2)
    let sqrtA := Real.sqrt A
    ⟨A * ((A + 1) + (A - 1) * cosW0 + 2 * sqrtA * alpha),
     -2 * A * ((A - 1) + (A + 1) * cosW0),
     A * ((A + 1) + (A - 1) * cosW0 - 2 * sqrtA * alpha),
     (A + 1) - (A - 1) * cosW0 + 2 * sqrtA * alpha,
     2 * ((A - 1) - (A + 1) * cosW0),
     (A + 1) - (A - 1) * cosW0 - 2 * sqrtA * alpha⟩

/-- Squared magnitude of the normalized biquad at angular frequency `w`:
the coefficients are divided by `a0`, then evaluated through their real and
imaginary parts at `e^(jw)` and `e^(j2w)` exactly as in the source. -/
noncomputable def magSquared (w : ℝ) (c : BiquadCoeffs) : ℝ :=
  let b0 := c.b0 / c.a0
  let b1 := c.b1 / c.a0
  let b2 := c.b2 / c.a0
  let a1 := c.a1 / c.a0
  let a2 := c.a2 / c.a0
  let cosW := Real.cos w
  let cos2W := Real.cos (2 * w)
  let sinW := Real.sin w
  let sin2W := Real.sin (2 * w)
  let numReal := b0 + b1 * cosW + b2 * cos2W
  let numImag := -(b1 * sinW + b2 * sin2W)
  let denReal := 1 + a1 * cosW + a2 * cos2W
  let denImag := -(a1 * sinW + a2 * sin2W)
  (numReal * numReal + numImag * numImag) / (denReal * denReal + denImag * denImag)

/-- The quantity `magSquared` computed by `calcBiquadMagnitudeDb` just before
its safety check: clamped frequencies, `w0`, `w`, `A`, coefficients, then
squared magnitude. -/
noncomputable def calcMagSquared (freq fc gainDb q : ℝ) (filterTypeStr : String)
    (sampleRate : ℝ) : ℝ :=
  let w0 := 2 * Real.pi * safeFc fc sampleRate / sampleRate
  let w := 2 * Real.pi * safeFreq freq sampleRate / sampleRate
  let A := Real.rpow 10 (gainDb / DB_TO_LINEAR_DIVISOR)
  magSquared w (biquadCoeffs w0 A q (normalizeFilterType filterTypeStr))

/-- `calcBiquadMagnitudeDb` from src/lib/audio-math.ts: magnitude response in
dB, with the safety check `if (magSquared <= 0 || !Number.isFinite(magSquared))
return -100`.  Over `ℝ` the non-finite disjunct has no inhabitant (JavaScript
evaluations that produce `Infinity`/`NaN` from a zero denominator correspond
here to `magSquared = 0`, which the non-positive disjunct also floors). -/
noncomputable def calcBiquadMagnitudeDb (freq fc gainDb q : ℝ) (filterTypeStr : String)
    (sampleRate : ℝ) : ℝ :=
  let m := calcMagSquared freq fc gainDb q filterTypeStr sampleRate
  if m ≤ 0 then -100 else 10 * Real.logb 10 m

/-- `ParametricBand` from src/lib/types.ts.  `filter_type` is kept as the
string handed to `calcBiquadMagnitudeDb`.  The `enabled` flag is absent from
lib/types.ts but is read and written by the component layer
(src/components/band-editor.tsx, src/components/eq-graph.tsx), so the runtime
band objects carry it; it is included here so that both layers can be stated. -/
structure ParametricBand where
  id : String
  filter_type : String
  frequency : ℝ
  gain : ℝ
  q_factor : ℝ
  enabled : Bool

/-- The inner loop of `calculatePeakGain`: `totalDb` starts at `preamp` and
accumulates `calcBiquadMagnitudeDb` over every band of the list. -/
noncomputable def totalDbAt (bands : List ParametricBand) (preamp freq sampleRate : ℝ) : ℝ :=
  bands.foldl
    (fun acc b =>
      acc + calcBiquadMagnitudeDb freq b.frequency b.gain b.q_factor b.filter_type sampleRate)
    preamp

/-- The outer loop of `calculatePeakGain`: `maxDb` starts at `-Infinity`
(modelled as `⊥ : EReal`) and takes the running maximum of `totalDb` over
`FREQUENCIES`. -/
noncomputable def peakLoopMax (bands : List ParametricBand) (preamp sampleRate : ℝ) : EReal :=
  FREQUENCIES.foldl
    (fun acc freq => max acc ((totalDbAt bands preamp freq sampleRate : ℝ) : EReal)) ⊥

/-- `calculatePeakGain` from src/lib/audio-math.ts: the grid maximum, then
`Math.round(maxDb * 10) / 10`.  `FREQUENCIES` has 200 points, so the
accumulator is finite at the end and `EReal.toReal` is exact. -/
noncomputable def calculatePeakGain (bands : List ParametricBand) (preamp sampleRate : ℝ) : ℝ :=
  ((round ((peakLoopMax bands preamp sampleRate).toReal * 10) : ℤ) : ℝ) / 10

/-- Maximum of a list of reals, head-seeded (junk value 0 on the empty list;
every use below is on a nonempty list). -/
noncomputable def listMax : List ℝ → ℝ
  | [] => 0
  | x :: xs => xs.foldl max x

/-- Written from the spec's words (§4.2 and claim C1): "the maximum, taken
over the fixed 200-point logarithmic frequency grid FREQUENCIES, of preamp
plus the sum of calcBiquadMagnitudeDb over all bands at that grid frequency".
Used as the refinement target for `calculatePeakGain`. -/
noncomputable def specGridPeak (bands : List ParametricBand) (preamp sampleRate : ℝ) : ℝ :=
  listMax (FREQUENCIES.map (fun freq =>
    preamp + (bands.map (fun b =>
      calcBiquadMagnitudeDb freq b.frequency b.gain b.q_factor b.filter_type sampleRate)).sum))

/-- `useFrequencyResponse` from src/components/eq-graph.tsx: per grid
frequency, `totalDb` starts at `preamp` and accumulates only the bands with
`band.enabled` true. -/
noncomputable def useFrequencyResponse (bands : List ParametricBand)
    (preamp sampleRate : ℝ) : List ℝ :=
  FREQUENCIES.map (fun freq =>
    bands.foldl
      (fun acc b =>
        if b.enabled then
          acc + calcBiquadMagnitudeDb freq b.frequency b.gain b.q_factor b.filter_type sampleRate
        else acc)
      preamp)

/-- Modelled from the spec: `binomialCoeff` ("n choose i", §4.6 and the
formula block of src/unnamed/part_002) is referenced by `binomialTest` but its
definition is not under src/; per the document's formula it is the binomial
coefficient C(n,i). -/
def binomialCoeff (n k : ℕ) : ℕ := Nat.choose n k

/-- The `pmf` closure of `binomialTest` (src/unnamed/part_002):
`binomialCoeff(trials, k) * p^k * (1-p)^(trials-k)`, over exact rationals. -/
def binomialPmf (trials : ℕ) (p : ℚ) (k : ℕ) : ℚ :=
  (binomialCoeff trials k : ℚ) * p ^ k * (1 - p) ^ (trials - k)

/-- `binomialTest` from src/unnamed/part_002: two-tailed exact binomial test.
Starts from the observed outcome's mass and adds the mass of every other
outcome at most as probable, capping at 1. -/
def binomialTest (successes trials : ℕ) (p : ℚ) : ℚ :=
  let observedP := binomialPmf trials p successes
  let pValue := (List.range (trials + 1)).foldl
    (fun acc k =>
      if binomialPmf trials p k ≤ observedP ∧ k ≠ successes then acc + binomialPmf trials p k
      else acc)
    observedP
  min pValue 1

/-- The three phases of the A/B test hook (src/unnamed/part_006,
`ABTestPhase`). -/
inductive ABPhase where
  | setup
  | running
  | results
deriving DecidableEq

/-- `ABStateForUI` from src/lib/tauri.ts (numbers as `ℚ`/`ℤ`). -/
structure ABStateForUI where
  mode : String
  state : String
  current_trial : ℤ
  total_trials : ℤ
  trim_db : ℚ
  auto_trim_db : ℚ
  active_option : Option String
  preset_a : Option String
  preset_b : Option String
deriving DecidableEq

/-- `ABTestSetup` from src/unnamed/part_006; `trimDb = none` means
"use auto". -/
structure ABTestSetup where
  presetA : String
  presetB : String
  mode : String
  totalTrials : ℤ
  trimDb : Option ℚ
deriving DecidableEq

/-- The state held by the `useABTest` hook (src/unnamed/part_006) that the
session actions read and write.  `results` is collapsed to the part the
modelled transitions touch (set on finish, cleared by `resetSession`). -/
structure ABTestHookState where
  phase : ABPhase
  sessionState : Option ABStateForUI
  results : Option Unit
  error : Option String
  isLoading : Bool
  setup : ABTestSetup
  autoTrimDb : ℚ
deriving DecidableEq

/-- `startSession` from src/unnamed/part_006, as a pure transition.  The
external `tauri.startABSession` call is passed in as `backend`.  Guard order,
error strings, the `phase` transition and the "if user hadn't set a manual
trim, use the auto value" write are those of the source. -/
def startSession (st : ABTestHookState) (backend : Except String ABStateForUI) :
    ABTestHookState :=
  if st.setup.presetA = "" ∨ st.setup.presetB = "" then
    ⟨st.phase, st.sessionState, st.results, some "Please select both presets",
     st.isLoading, st.setup, st.autoTrimDb⟩
  else if st.setup.presetA = st.setup.presetB then
    ⟨st.phase, st.sessionState, st.results, some "Presets must be different",
     st.isLoading, st.setup, st.autoTrimDb⟩
  else
    match backend with
    | Except.error e =>
      ⟨st.phase, st.sessionState, st.results, some e, false, st.setup, st.autoTrimDb⟩
    | Except.ok s =>
      ⟨ABPhase.running, some s, st.results, none, false,
       (if st.setup.trimDb = none then
         ⟨st.setup.presetA, st.setup.presetB, st.setup.mode, st.setup.totalTrials,
          some s.auto_trim_db⟩
        else st.setup),
       s.auto_trim_db⟩

/-- `updateTrim` from src/unnamed/part_006, restricted to its state effect:
substitutes a user-supplied trim value into the setup. -/
def updateTrim (st : ABTestHookState) (trimDb : ℚ) : ABTestHookState :=
  ⟨st.phase, st.sessionState, st.results, st.error, st.isLoading,
   ⟨st.setup.presetA, st.setup.presetB, st.setup.mode, st.setup.totalTrials, some trimDb⟩,
   st.autoTrimDb⟩

/-- `resetSession` from src/unnamed/part_006: back to setup phase, clears
session state, results and error, and resets the trim to auto. -/
def resetSession (st : ABTestHookState) : ABTestHookState :=
  ⟨ABPhase.setup, none, none, none, st.isLoading,
   ⟨st.setup.presetA, st.setup.presetB, st.setup.mode, st.setup.totalTrials, none⟩,
   st.autoTrimDb⟩

/-- `resetTrimToAuto` from src/unnamed/part_006: sets `trimDb` back to
`none` (auto) and nothing else. -/
def resetTrimToAuto (st : ABTestHookState) : ABTestHookState :=
  ⟨st.phase, st.sessionState, st.results, st.error, st.isLoading,
   ⟨st.setup.presetA, st.setup.presetB, st.setup.mode, st.setup.totalTrials, none⟩,
   st.autoTrimDb⟩

/-- Modelled from the spec: the Rust `start_ab_session` command behind
`tauri.startABSession` is not under src/; per §4.5 it "validates
`configA ≠ configB` identity and `totalTrials ≥ 1`", computes or accepts the
trim, starts at trial 0 and transitions to Running, and per §7 validation
failures are `InvalidSessionOperation` errors.  `autoTrim` stands for the
Loudness Trim Calculator's result. -/
def backendStartABSession (mode presetA presetB : String) (totalTrials : ℤ)
    (trimDb : Option ℚ) (autoTrim : ℚ) : Except String ABStateForUI :=
  if presetA = presetB then
    Except.error "InvalidSessionOperation: identical A/B configurations"
  else if totalTrials < 1 then
    Except.error "InvalidSessionOperation: totalTrials < 1"
  else
    Except.ok ⟨mode, "trial", 0, totalTrials, trimDb.getD autoTrim, autoTrim,
      none, some presetA, some presetB⟩

/-- `startSession` composed with the spec-modelled backend command. -/
def startSessionFull (st : ABTestHookState) (autoTrim : ℚ) : ABTestHookState :=
  startSession st
    (backendStartABSession st.setup.mode st.setup.presetA st.setup.presetB
      st.setup.totalTrials st.setup.trimDb autoTrim)

/-- Folding `acc + g b` over a list equals the seed plus the mapped sum. -/
lemma foldl_add_eq_sum {α : Type} (g : α → ℝ) (l : List α) (a : ℝ) :
    l.foldl (fun acc b => acc + g b) a = a + (l.map g).sum := by
  induction l generalizing a with
  | nil => simp
  | cons x xs ih => simp [ih, add_assoc]

/-- `totalDbAt` is the preamp plus the sum of the per-band magnitudes. -/
lemma totalDbAt_eq_sum (bands : List ParametricBand) (preamp freq sampleRate : ℝ) :
    totalDbAt bands preamp freq sampleRate =
      preamp + (bands.map (fun b =>
        calcBiquadMagnitudeDb freq b.frequency b.gain b.q_factor b.filter_type sampleRate)).sum :=
  foldl_add_eq_sum _ bands preamp

/-- The coercion `ℝ → EReal` commutes with `max`. -/
lemma ereal_coe_max (a b : ℝ) : ((max a b : ℝ) : EReal) = max (a : EReal) (b : EReal) := by
  rcases le_total a b with h | h
  · rw [max_eq_right h, max_eq_right (EReal.coe_le_coe_iff.mpr h)]
  · rw [max_eq_left h, max_eq_left (EReal.coe_le_coe_iff.mpr h)]

/-- A running-max fold over `EReal` seeded with a real equals the coercion of
the real running-max fold. -/
lemma foldl_max_coe {α : Type} (f : α → ℝ) (l : List α) (a : ℝ) :
    l.foldl (fun acc x => max acc ((f x : ℝ) : EReal)) ((a : ℝ) : EReal)
      = ((l.foldl (fun acc x => max acc (f x)) a : ℝ) : EReal) := by
  induction l generalizing a with
  | nil => rfl
  | cons x xs ih => simpa [← ereal_coe_max] using ih (max a (f x))

/-- A running-max fold seeded with `⊥ : EReal` over a nonempty list equals
the coercion of the head-seeded real fold. -/
lemma foldl_max_bot {α : Type} (f : α → ℝ) (x : α) (l : List α) :
    ((x :: l).foldl (fun acc y => max acc ((f y : ℝ) : EReal)) ⊥)
      = ((l.foldl (fun acc y => max acc (f y)) (f x) : ℝ) : EReal) := by
  rw [List.foldl_cons, max_eq_right bot_le, foldl_max_coe]

/-- `listMax` over a mapped nonempty list as a head-seeded fold. -/
lemma listMax_map_cons {α : Type} (f : α → ℝ) (x : α) (xs : List α) :
    listMax ((x :: xs).map f) = xs.foldl (fun acc y => max acc (f y)) (f x) := by
  simp [listMax, List.foldl_map]

/-- The seed is below a running-max fold. -/
lemma le_foldl_max (l : List ℝ) (a : ℝ) : a ≤ l.foldl max a := by
  induction l generalizing a with
  | nil => exact le_refl a
  | cons x xs ih => exact le_trans (le_max_left a x) (ih (max a x))

/-- Every member is below a running-max fold. -/
lemma mem_le_foldl_max (l : List ℝ) (a x : ℝ) (hx : x ∈ l) : x ≤ l.foldl max a := by
  induction l generalizing a with
  | nil => cases hx
  | cons y ys ih =>
    rw [List.foldl_cons]
    rcases List.mem_cons.mp hx with h | h
    · subst h
      exact le_trans (le_max_right a x) (le_foldl_max ys (max a x))
    · exact ih (max a y) h

/-- The frequency grid has 200 points, hence is nonempty. -/
lemma frequencies_ne_nil : FREQUENCIES ≠ [] := by
  intro h
  have hlen := congrArg List.length h
  simp [FREQUENCIES, FREQUENCY_GRAPH_POINTS] at hlen

/-- Bridge: `calculatePeakGain` is the spec-side grid maximum `specGridPeak`,
rounded to one decimal place. -/
lemma calculatePeakGain_eq_round_specGridPeak (bands : List ParametricBand)
    (preamp sampleRate : ℝ) :
    calculatePeakGain bands preamp sampleRate
      = ((round (specGridPeak bands preamp sampleRate * 10) : ℤ) : ℝ) / 10 := by
  cases hF : FREQUENCIES with
  | nil => exact absurd hF frequencies_ne_nil
  | cons x xs =>
    have hmax : peakLoopMax bands preamp sampleRate
        = ((xs.foldl (fun acc y => max acc (totalDbAt bands preamp y sampleRate)) 
            (totalDbAt bands preamp x sampleRate) : ℝ) : EReal) := by
      rw [peakLoopMax, hF]
      exact foldl_max_bot (fun y => totalDbAt bands preamp y sampleRate) x xs
    have hspec : specGridPeak bands preamp sampleRate
        = xs.foldl (fun acc y => max acc (totalDbAt bands preamp y sampleRate))
            (totalDbAt bands preamp x sampleRate) := by
      rw [specGridPeak, hF, listMax_map_cons]
      simp only [← totalDbAt_eq_sum]
    rw [calculatePeakGain, hmax, EReal.toReal_coe, hspec]

/-- With no bands, the spec-side grid maximum is the preamp itself. -/
lemma specGridPeak_nil (preamp sampleRate : ℝ) :
    specGridPeak [] preamp sampleRate = preamp := by
  cases hF : FREQUENCIES with
  | nil => exact absurd hF frequencies_ne_nil
  | cons x xs =>
    rw [specGridPeak, hF, listMax_map_cons]
    simp only [List.map_nil, List.sum_nil, add_zero]
    have : ∀ (ys : List ℝ) (a : ℝ), ys.foldl (fun acc _ => max acc a) a = a := by
      intro ys a
      induction ys with
      | nil => rfl
      | cons y ys ih => simpa [max_self] using ih
    exact this xs preamp

/-- One-decimal rounding moves a real by at most 1/20. -/
lemma round_div_ten_close (x : ℝ) : |((round (x * 10) : ℤ) : ℝ) / 10 - x| ≤ 1 / 20 := by
  have h := abs_sub_round (x * 10)
  have heq : ((round (x * 10) : ℤ) : ℝ) / 10 - x = -((x * 10 - ((round (x * 10) : ℤ) : ℝ)) / 10) := by
    ring
  rw [heq, abs_neg, abs_div, abs_of_pos (by norm_num : (0:ℝ) < 10)]
  linarith

/-- C1 (counterexample): as literally stated the claim fails, because
`calculatePeakGain` rounds to one decimal place.  With no bands and preamp
0.05 dB the grid maximum of the per-frequency sums is 0.05, but
`calculatePeakGain` returns 0.1. -/
theorem C1_counterexample_rounding :
    calculatePeakGain [] (1 / 20) 48000 ≠ specGridPeak [] (1 / 20) 48000 := by
  rw [calculatePeakGain_eq_round_specGridPeak, specGridPeak_nil]
  have h : round ((1 / 20 : ℝ) * 10) = 1 := by
    norm_num [round_eq]
  rw [h]
  norm_num

/-- C1 (amended): for every list of bands, preamp and sample rate,
`calculatePeakGain` equals the maximum, over the 200-point grid `FREQUENCIES`,
of preamp plus the sum of `calcBiquadMagnitudeDb` over all bands at that grid
frequency — the maximum of the per-frequency sums — rounded to one decimal
place. -/
theorem C1_peakGain_is_rounded_max_of_sums (bands : List ParametricBand)
    (preamp sampleRate : ℝ) :
    calculatePeakGain bands preamp sampleRate
      = ((round (specGridPeak bands preamp sampleRate * 10) : ℤ) : ℝ) / 10 :=
  calculatePeakGain_eq_round_specGridPeak bands preamp sampleRate

/-- C9: `calculatePeakGain` is the raw grid maximum quantized to one decimal
place (`round(x*10)/10`); on an empty band list it returns the preamp rounded
to one decimal place; and the returned peak differs from the true grid
maximum by at most 0.05 dB. -/
theorem C9_peakGain_quantized :
    (∀ (bands : List ParametricBand) (preamp sampleRate : ℝ),
      calculatePeakGain bands preamp sampleRate
        = ((round (specGridPeak bands preamp sampleRate * 10) : ℤ) : ℝ) / 10)
    ∧ (∀ preamp sampleRate : ℝ,
      calculatePeakGain [] preamp sampleRate = ((round (preamp * 10) : ℤ) : ℝ) / 10)
    ∧ (∀ (bands : List ParametricBand) (preamp sampleRate : ℝ),
      |calculatePeakGain bands preamp sampleRate - specGridPeak bands preamp sampleRate|
        ≤ 1 / 20) := by
  refine ⟨fun bands preamp sampleRate => calculatePeakGain_eq_round_specGridPeak .., ?_, ?_⟩
  · intro preamp sampleRate
    rw [calculatePeakGain_eq_round_specGridPeak, specGridPeak_nil]
  · intro bands preamp sampleRate
    rw [calculatePeakGain_eq_round_specGridPeak]
    exact round_div_ten_close (specGridPeak bands preamp sampleRate)

/-- C4: the two-tailed exact binomial test of `binomialTest`
(src/unnamed/part_002) against p = 0.5, at 18 correct of 20 trials, yields a
p-value strictly below 0.001 (its exact value is 211/524288 ≈ 0.000402). -/
theorem C4_binomial_18_of_20_significant : binomialTest 18 20 (1 / 2) < 1 / 1000 := by
  have hrange : List.range 21 = [0, 1, 2, 3, 4, 5, 6, 7, 8, 9, 10, 11, 12, 13, 14, 15,
      16, 17, 18, 19, 20] := by rfl
  rw [binomialTest]
  simp only [hrange, List.foldl_cons, List.foldl_nil, binomialPmf, binomialCoeff]
  norm_num [Nat.choose]

/-- Applying the clamp `max lo (min · hi)` twice equals applying it once. -/
lemma clamp_idem (lo hi x : ℝ) : max lo (min (max lo (min x hi)) hi) = max lo (min x hi) := by
  rcases le_total (min x hi) lo with h | h
  · rw [max_eq_left h]
    rcases le_total lo hi with h2 | h2
    · rw [min_eq_left h2, max_self]
    · rw [min_eq_right h2, max_eq_left h2]
  · rw [max_eq_right h, min_eq_left (min_le_right x hi), max_eq_right h]

/-- The center-frequency clamp of `calcBiquadMagnitudeDb` is idempotent. -/
lemma safeFc_idem (fc sampleRate : ℝ) : safeFc (safeFc fc sampleRate) sampleRate = safeFc fc sampleRate := by
  simp only [safeFc]
  exact clamp_idem 1 (sampleRate / 2 - 1) fc

/-- The evaluation-frequency clamp of `calcBiquadMagnitudeDb` is idempotent. -/
lemma safeFreq_idem (freq sampleRate : ℝ) : safeFreq (safeFreq freq sampleRate) sampleRate = safeFreq freq sampleRate := by
  simp only [safeFreq]
  exact clamp_idem 0 (sampleRate / 2) freq

/-- Feeding the already-clamped frequencies back in leaves the output
unchanged: the body only ever sees `safeFreq`/`safeFc`. -/
lemma calcBiquad_clamped (freq fc gainDb q : ℝ) (filterTypeStr : String) (sampleRate : ℝ) :
    calcBiquadMagnitudeDb (safeFreq freq sampleRate) (safeFc fc sampleRate) gainDb q
        filterTypeStr sampleRate
      = calcBiquadMagnitudeDb freq fc gainDb q filterTypeStr sampleRate := by
  simp only [calcBiquadMagnitudeDb, calcMagSquared, safeFc_idem, safeFreq_idem]

/-- For the shelving branches the coefficient computation only sees
`max 0.0001 q`, so pre-flooring `q` changes nothing. -/
lemma biquadCoeffs_q_floor (w0 A q : ℝ) (ft : FilterType) (h : ft ≠ FilterType.peaking) :
    biquadCoeffs w0 A (max 0.0001 q) ft = biquadCoeffs w0 A q ft := by
  cases ft with
  | peaking => exact absurd rfl h
  | lowshelf =>
    simp only [biquadCoeffs]
    rw [← max_assoc, max_self]
  | highshelf =>
    simp only [biquadCoeffs]
    rw [← max_assoc, max_self]

/-- Lift of `biquadCoeffs_q_floor` to `calcBiquadMagnitudeDb`. -/
lemma calcBiquad_q_floor (freq fc gainDb q : ℝ) (filterTypeStr : String) (sampleRate : ℝ)
    (h : normalizeFilterType filterTypeStr ≠ FilterType.peaking) :
    calcBiquadMagnitudeDb freq fc gainDb (max 0.0001 q) filterTypeStr sampleRate
      = calcBiquadMagnitudeDb freq fc gainDb q filterTypeStr sampleRate := by
  simp only [calcBiquadMagnitudeDb, calcMagSquared, biquadCoeffs_q_floor _ _ _ _ h]

/-- C3 (counterexample): as literally stated the claim fails for the
evaluation frequency: `safeFreq` clamps into the closed interval
`[0, sampleRate/2]`, so at `freq = 0` the clamped value is not positive, and
at `freq = 24000` with a 48 kHz rate it sits exactly at Nyquist with no 1 Hz
margin. -/
theorem C3_counterexample_no_margin_for_freq :
    ¬ (0 < safeFreq 0 48000) ∧ ¬ (safeFreq 24000 48000 ≤ 48000 / 2 - 1) := by
  constructor <;> norm_num [safeFreq]

/-- C3 (amended): before any trigonometric computation the filter's center
frequency is clamped into `[1, sampleRate/2 − 1]` (at least 1 Hz of margin
from Nyquist) and the evaluation frequency into the closed interval
`[0, sampleRate/2]` (no margin); the body depends on the frequencies only
through these clamped values. -/
theorem C3_clamping (freq fc sampleRate : ℝ) :
    (4 ≤ sampleRate →
      1 ≤ safeFc fc sampleRate ∧ safeFc fc sampleRate ≤ sampleRate / 2 - 1 ∧
      0 ≤ safeFreq freq sampleRate ∧ safeFreq freq sampleRate ≤ sampleRate / 2)
    ∧ (∀ (gainDb q : ℝ) (filterTypeStr : String),
      calcBiquadMagnitudeDb freq fc gainDb q filterTypeStr sampleRate
        = calcBiquadMagnitudeDb (safeFreq freq sampleRate) (safeFc fc sampleRate)
            gainDb q filterTypeStr sampleRate) := by
  constructor
  · intro h
    refine ⟨le_max_left 1 _, max_le (by linarith) (min_le_right _ _),
      le_max_left 0 _, max_le (by linarith) (min_le_right _ _)⟩
  · intro gainDb q filterTypeStr
    exact (calcBiquad_clamped freq fc gainDb q filterTypeStr sampleRate).symm

/-- Witness for C3 at a concrete out-of-range input (fc = 100000 Hz,
freq = −5 Hz, 48 kHz). -/
theorem C3_clamping_witness :
    1 ≤ safeFc 100000 48000 ∧ safeFc 100000 48000 ≤ 48000 / 2 - 1 ∧
    0 ≤ safeFreq (-5) 48000 ∧ safeFreq (-5) 48000 ≤ 48000 / 2 :=
  (C3_clamping (-5) 100000 48000).1 (by norm_num)

/-- C8 (counterexample): as literally stated the claim fails: invalid
parameters are not rejected with an error before evaluation; they are
silently clamped.  An out-of-range center frequency (100000 Hz at a 48 kHz
rate) is evaluated exactly as the in-range clamped value 23999 Hz, and a
non-positive Q (0) on a shelving filter is evaluated exactly as the floored
value 0.0001. -/
theorem C8_counterexample_silent_clamp :
    calcBiquadMagnitudeDb 20 100000 6 1 "peaking" 48000
      = calcBiquadMagnitudeDb 20 23999 6 1 "peaking" 48000
    ∧ calcBiquadMagnitudeDb 20 1000 6 0 "lowshelf" 48000
      = calcBiquadMagnitudeDb 20 1000 6 0.0001 "lowshelf" 48000 := by
  constructor
  · have h : safeFc (100000 : ℝ) 48000 = safeFc 23999 48000 := by
      simp only [safeFc]
      norm_num
    simp only [calcBiquadMagnitudeDb, calcMagSquared, h]
  · have hn : normalizeFilterType "lowshelf" ≠ FilterType.peaking := by decide
    have h0 : max (0.0001 : ℝ) 0 = 0.0001 := by norm_num
    calc calcBiquadMagnitudeDb 20 1000 6 0 "lowshelf" 48000
        = calcBiquadMagnitudeDb 20 1000 6 (max 0.0001 0) "lowshelf" 48000 :=
          (calcBiquad_q_floor 20 1000 6 0 "lowshelf" 48000 hn).symm
      _ = calcBiquadMagnitudeDb 20 1000 6 0.0001 "lowshelf" 48000 := by rw [h0]

/-- C8 (amended): `calcBiquadMagnitudeDb` does not reject invalid parameters
at its boundary: every input is accepted, the center frequency is silently
clamped to `safeFc` before evaluation, and for shelving filters a
non-positive Q is silently floored at 0.0001; no `InvalidParameter` error
exists (the embedding is a total function into `ℝ`). -/
theorem C8_no_rejection_silent_clamp (freq fc gainDb q : ℝ) (filterTypeStr : String)
    (sampleRate : ℝ) :
    calcBiquadMagnitudeDb freq fc gainDb q filterTypeStr sampleRate
      = calcBiquadMagnitudeDb freq (safeFc fc sampleRate) gainDb q filterTypeStr sampleRate
    ∧ (normalizeFilterType filterTypeStr ≠ FilterType.peaking →
      calcBiquadMagnitudeDb freq fc gainDb q filterTypeStr sampleRate
        = calcBiquadMagnitudeDb freq fc gainDb (max 0.0001 q) filterTypeStr sampleRate) := by
  constructor
  · simp only [calcBiquadMagnitudeDb, calcMagSquared, safeFc_idem]
  · intro h
    exact (calcBiquad_q_floor freq fc gainDb q filterTypeStr sampleRate h).symm

/-- Witness for C8 at a concrete input: a high-shelf alias with negative Q. -/
theorem C8_no_rejection_witness :
    normalizeFilterType "hs" ≠ FilterType.peaking
    ∧ calcBiquadMagnitudeDb 100 2000 3 (-1) "hs" 48000
      = calcBiquadMagnitudeDb 100 2000 3 (max 0.0001 (-1)) "hs" 48000 :=
  ⟨by decide, (C8_no_rejection_silent_clamp 100 2000 3 (-1) "hs" 48000).2 (by decide)⟩

/-- C10: `normalizeFilterType` accepts any string and never fails: the input
is lowercased, the aliases pk/peq, ls/lsc/"low shelf", hs/hsc/"high shelf"
map to peaking, lowshelf and highshelf, every string whose lowercase form is
not one of the eleven recognized spellings maps to peaking, and
`calcBiquadMagnitudeDb` depends on the string only through
`normalizeFilterType`. -/
theorem C10_filter_type_normalization :
    (normalizeFilterType "PK" = FilterType.peaking
      ∧ normalizeFilterType "peq" = FilterType.peaking
      ∧ normalizeFilterType "Peaking" = FilterType.peaking
      ∧ normalizeFilterType "ls" = FilterType.lowshelf
      ∧ normalizeFilterType "LSC" = FilterType.lowshelf
      ∧ normalizeFilterType "Low Shelf" = FilterType.lowshelf
      ∧ normalizeFilterType "lowshelf" = FilterType.lowshelf
      ∧ normalizeFilterType "hs" = FilterType.highshelf
      ∧ normalizeFilterType "HSC" = FilterType.highshelf
      ∧ normalizeFilterType "High Shelf" = FilterType.highshelf
      ∧ normalizeFilterType "highshelf" = FilterType.highshelf)
    ∧ (∀ s : String,
      strToLower s ∉ (["peaking", "pk", "peq", "lowshelf", "ls", "lsc", "low shelf",
        "highshelf", "hs", "hsc", "high shelf"] : List String) →
      normalizeFilterType s = FilterType.peaking)
    ∧ (∀ (s1 s2 : String) (freq fc gainDb q sampleRate : ℝ),
      normalizeFilterType s1 = normalizeFilterType s2 →
      calcBiquadMagnitudeDb freq fc gainDb q s1 sampleRate
        = calcBiquadMagnitudeDb freq fc gainDb q s2 sampleRate) := by
  refine ⟨by decide, ?_, ?_⟩
  · intro s h
    simp only [List.mem_cons, List.not_mem_nil, or_false, not_or] at h
    obtain ⟨h1, h2, h3, h4, h5, h6, h7, h8, h9, h10, h11⟩ := h
    rw [normalizeFilterType]
    rw [if_neg (by simp [not_or]; exact ⟨h1, h2, h3⟩)]
    rw [if_neg (by simp [not_or]; exact ⟨h4, h5, h6, h7⟩)]
    rw [if_neg (by simp [not_or]; exact ⟨h8, h9, h10, h11⟩)]
  · intro s1 s2 freq fc gainDb q sampleRate h
    simp only [calcBiquadMagnitudeDb, calcMagSquared, h]

/-- Witness for C10 at the concrete unrecognized string "unknown" (also the
case pinned by the unit test in src/unnamed/part_009). -/
theorem C10_normalization_witness :
    normalizeFilterType "unknown" = FilterType.peaking
    ∧ calcBiquadMagnitudeDb 100 1000 6 1 "unknown" 48000
      = calcBiquadMagnitudeDb 100 1000 6 1 "peaking" 48000 :=
  ⟨C10_filter_type_normalization.2.1 "unknown" (by decide),
   C10_filter_type_normalization.2.2 "unknown" "peaking" 100 1000 6 1 48000 (by decide)⟩

/-- C6: once a manual trim has been substituted (`setup.trimDb` non-null),
`startSession` never overwrites it; the auto value is written only when
`trimDb` is null (and only on a successful start); and the only modelled
operations returning the trim to auto are the explicit `resetTrimToAuto` and
`resetSession`. -/
theorem C6_manual_trim_not_overwritten :
    (∀ (st : ABTestHookState) (backend : Except String ABStateForUI) (v : ℚ),
      st.setup.trimDb = some v → (startSession st backend).setup.trimDb = some v)
    ∧ (∀ (st : ABTestHookState) (s : ABStateForUI),
      st.setup.trimDb = none → st.setup.presetA ≠ "" → st.setup.presetB ≠ "" →
      st.setup.presetA ≠ st.setup.presetB →
      (startSession st (Except.ok s)).setup.trimDb = some s.auto_trim_db)
    ∧ (∀ st : ABTestHookState, (resetTrimToAuto st).setup.trimDb = none)
    ∧ (∀ st : ABTestHookState, (resetSession st).setup.trimDb = none) := by
  refine ⟨?_, ?_, fun st => rfl, fun st => rfl⟩
  · intro st backend v hv
    rw [startSession.eq_def]
    split_ifs with h1 h2 h3
    · exact hv
    · exact hv
    · simp [h3] at hv
    · cases backend with
      | error e => exact hv
      | ok s => exact hv
  · intro st s h0 hA hB hAB
    rw [startSession.eq_def]
    rw [if_neg (by simp [hA, hB]), if_neg hAB]
    simp [h0]

/-- Concrete hook state with a manually substituted trim of 2 dB. -/
def sampleManualTrimState : ABTestHookState :=
  ⟨ABPhase.setup, none, none, none, false, ⟨"Rock", "Flat", "abx", 10, some 2⟩, 0⟩

/-- Witness for C6: the manual 2 dB trim survives a (successful) session
start with auto trim 5 dB, and `resetTrimToAuto` clears it. -/
theorem C6_manual_trim_witness :
    (startSession sampleManualTrimState
      (Except.ok ⟨"abx", "trial", 0, 10, 5, 5, none, some "Rock", some "Flat"⟩)).setup.trimDb
        = some 2
    ∧ (resetTrimToAuto sampleManualTrimState).setup.trimDb = none :=
  ⟨C6_manual_trim_not_overwritten.1 sampleManualTrimState
      (Except.ok ⟨"abx", "trial", 0, 10, 5, 5, none, some "Rock", some "Flat"⟩) 2 rfl,
   C6_manual_trim_not_overwritten.2.2.1 sampleManualTrimState⟩

/-- C7: starting a session validates that the two configurations are not
identical (frontend guard on the selected presets) and that
`totalTrials ≥ 1` (spec-modelled backend guard); on either failure an error
is reported and the session does not transition to Running (phase and
session state are unchanged). -/
theorem C7_start_validates (st : ABTestHookState) (autoTrim : ℚ)
    (h : st.setup.presetA = st.setup.presetB ∨ st.setup.totalTrials < 1) :
    (startSessionFull st autoTrim).error ≠ none
    ∧ (startSessionFull st autoTrim).phase = st.phase
    ∧ (startSessionFull st autoTrim).sessionState = st.sessionState := by
  rw [startSessionFull, startSession.eq_def]
  split_ifs with h1 h2 h3
  · exact ⟨by simp, rfl, rfl⟩
  · exact ⟨by simp, rfl, rfl⟩
  all_goals
    have ht : st.setup.totalTrials < 1 := h.resolve_left h2
    rw [backendStartABSession, if_neg h2, if_pos ht]
    exact ⟨by simp, rfl, rfl⟩

/-- Concrete hook state whose two selected presets are identical. -/
def sampleEqualPresetState : ABTestHookState :=
  ⟨ABPhase.setup, none, none, none, false, ⟨"Rock", "Rock", "abx", 10, none⟩, 0⟩

/-- Witness for C7 at identical presets: the start fails with an error and
the phase stays at setup. -/
theorem C7_start_validates_witness :
    (startSessionFull sampleEqualPresetState 0).error ≠ none
    ∧ (startSessionFull sampleEqualPresetState 0).phase = ABPhase.setup
    ∧ (startSessionFull sampleEqualPresetState 0).sessionState = none :=
  C7_start_validates sampleEqualPresetState 0 (Or.inl rfl)

/-- Core algebraic identity: at its own center angular frequency the
normalized peaking biquad's squared magnitude is `(β/γ)²`, where `β = αA`
and `γ = α/A` are the off-by-`A` parts of the numerator and denominator
coefficients. -/
lemma biquad_center_aux (B G s c0 : ℝ) (hG1 : 1 + G ≠ 0) (hs : s ≠ 0) (hG : G ≠ 0)
    (hpy : s ^ 2 = 1 - c0 ^ 2) :
    (((1 + B) / (1 + G) + -2 * c0 / (1 + G) * c0 + (1 - B) / (1 + G) * (2 * c0 ^ 2 - 1)) *
        ((1 + B) / (1 + G) + -2 * c0 / (1 + G) * c0 + (1 - B) / (1 + G) * (2 * c0 ^ 2 - 1)) +
      -(-2 * c0 / (1 + G) * s + (1 - B) / (1 + G) * (2 * s * c0)) *
        -(-2 * c0 / (1 + G) * s + (1 - B) / (1 + G) * (2 * s * c0))) /
    ((1 + -2 * c0 / (1 + G) * c0 + (1 - G) / (1 + G) * (2 * c0 ^ 2 - 1)) *
        (1 + -2 * c0 / (1 + G) * c0 + (1 - G) / (1 + G) * (2 * c0 ^ 2 - 1)) +
      -(-2 * c0 / (1 + G) * s + (1 - G) / (1 + G) * (2 * s * c0)) *
        -(-2 * c0 / (1 + G) * s + (1 - G) / (1 + G) * (2 * s * c0))) = (B / G) ^ 2 := by
  have hnr : (1 + B) / (1 + G) + -2 * c0 / (1 + G) * c0 + (1 - B) / (1 + G) * (2 * c0 ^ 2 - 1)
      = 2 * B * s ^ 2 / (1 + G) := by
    field_simp
    linear_combination (-2 * B) * hpy
  have hni : -(-2 * c0 / (1 + G) * s + (1 - B) / (1 + G) * (2 * s * c0))
      = 2 * B * s * c0 / (1 + G) := by
    field_simp
    ring
  have hdr : 1 + -2 * c0 / (1 + G) * c0 + (1 - G) / (1 + G) * (2 * c0 ^ 2 - 1)
      = 2 * G * s ^ 2 / (1 + G) := by
    field_simp
    linear_combination (-2 * G) * hpy
  have hdi : -(-2 * c0 / (1 + G) * s + (1 - G) / (1 + G) * (2 * s * c0))
      = 2 * G * s * c0 / (1 + G) := by
    field_simp
    ring
  rw [hnr, hni, hdr, hdi]
  have hD : (2 * G * s ^ 2 / (1 + G)) * (2 * G * s ^ 2 / (1 + G))
      + (2 * G * s * c0 / (1 + G)) * (2 * G * s * c0 / (1 + G)) ≠ 0 := by
    have h1 : 0 < (2 * G * s ^ 2 / (1 + G)) * (2 * G * s ^ 2 / (1 + G)) := by
      have hne : 2 * G * s ^ 2 / (1 + G) ≠ 0 := by
        apply div_ne_zero
        · positivity
        · exact hG1
      exact mul_self_pos.mpr hne
    have h2 : 0 ≤ (2 * G * s * c0 / (1 + G)) * (2 * G * s * c0 / (1 + G)) := mul_self_nonneg _
    linarith
  rw [div_eq_iff hD]
  field_simp
  ring

/-- At `w = w0` the squared magnitude of the peaking filter is exactly `A⁴`
(so its dB value is exactly the gain), provided `sin w0 > 0`, `q > 0` and
`A > 0`. -/
lemma magSquared_peaking_center (w0 A q : ℝ) (hs : 0 < Real.sin w0) (hq : 0 < q) (hA : 0 < A) :
    magSquared w0 (biquadCoeffs w0 A q FilterType.peaking) = A ^ (4 : ℕ) := by
  have h2q : (0:ℝ) < 2 * q := by linarith
  have hα : 0 < Real.sin w0 / (2 * q) := div_pos hs h2q
  set s := Real.sin w0 with hsdef
  set c0 := Real.cos w0 with hc0def
  have haA : 0 < s / (2 * q) / A := div_pos hα hA
  have ha0' : (1:ℝ) + s / (2 * q) / A ≠ 0 := by positivity
  have hs' : s ≠ 0 := ne_of_gt hs
  have hγ' : s / (2 * q) / A ≠ 0 := ne_of_gt haA
  have hs2 : s ^ 2 = 1 - c0 ^ 2 := by
    have hpy := Real.sin_sq_add_cos_sq w0
    rw [← hsdef, ← hc0def] at hpy
    linarith
  simp only [magSquared, biquadCoeffs]
  rw [Real.cos_two_mul, Real.sin_two_mul, ← hsdef, ← hc0def]
  rw [biquad_center_aux (s / (2 * q) * A) (s / (2 * q) / A) s c0 ha0' hs' hγ' hs2]
  have hdiv : s / (2 * q) * A / (s / (2 * q) / A) = A ^ 2 := by
    field_simp
    ring
  rw [hdiv]
  ring

/-- At an in-range center frequency the clamps are the identity, the angular
frequency lies in `(0, π)`, and `calcMagSquared` of the peaking filter at its
own center equals `A⁴`. -/
lemma calcMagSquared_peaking_center (fc gainDb q sampleRate : ℝ) (hq : 0 < q)
    (h1 : 1 ≤ fc) (h2 : fc ≤ sampleRate / 2 - 1) (hsr : 0 < sampleRate) :
    calcMagSquared fc fc gainDb q "peaking" sampleRate
      = Real.rpow 10 (gainDb / DB_TO_LINEAR_DIVISOR) ^ (4 : ℕ) := by
  have hfc : safeFc fc sampleRate = fc := by
    rw [safeFc, min_eq_left h2, max_eq_right h1]
  have hfr : safeFreq fc sampleRate = fc := by
    rw [safeFreq, min_eq_left (by linarith), max_eq_right (by linarith)]
  have hnorm : normalizeFilterType "peaking" = FilterType.peaking := by decide
  have hA : 0 < Real.rpow 10 (gainDb / DB_TO_LINEAR_DIVISOR) :=
    Real.rpow_pos_of_pos (by norm_num) _
  have hw0pos : 0 < 2 * Real.pi * fc / sampleRate := by
    apply div_pos _ hsr
    have hpi := Real.pi_pos
    nlinarith
  have hw0lt : 2 * Real.pi * fc / sampleRate < Real.pi := by
    rw [div_lt_iff₀ hsr]
    have hpi := mul_pos Real.pi_pos (show (0:ℝ) < sampleRate - 2 * fc by linarith)
    linarith
  have hs : 0 < Real.sin (2 * Real.pi * fc / sampleRate) :=
    Real.sin_pos_of_pos_of_lt_pi hw0pos hw0lt
  simp only [calcMagSquared, hfc, hfr, hnorm]
  exact magSquared_peaking_center _ _ _ hs hq hA

/-- A peaking filter evaluated exactly at its own (in-range) center frequency
returns exactly its gain in dB. -/
lemma calcBiquad_peaking_center (fc gainDb q sampleRate : ℝ) (hq : 0 < q)
    (h1 : 1 ≤ fc) (h2 : fc ≤ sampleRate / 2 - 1) (hsr : 0 < sampleRate) :
    calcBiquadMagnitudeDb fc fc gainDb q "peaking" sampleRate = gainDb := by
  have hA : 0 < Real.rpow 10 (gainDb / DB_TO_LINEAR_DIVISOR) :=
    Real.rpow_pos_of_pos (by norm_num) _
  have hm := calcMagSquared_peaking_center fc gainDb q sampleRate hq h1 h2 hsr
  simp only [calcBiquadMagnitudeDb, hm]
  rw [if_neg (not_le.mpr (by positivity))]
  rw [Real.logb_pow]
  have hr : Real.rpow 10 (gainDb / DB_TO_LINEAR_DIVISOR)
      = (10 : ℝ) ^ (gainDb / DB_TO_LINEAR_DIVISOR) := rfl
  rw [hr, Real.logb_rpow (by norm_num) (by norm_num)]
  rw [DB_TO_LINEAR_DIVISOR]
  ring

/-- C2: `calcBiquadMagnitudeDb` always yields a (finite) real value: whenever
the computed squared magnitude is non-positive it returns the −100 dB floor,
and otherwise it returns `10·log10` of that squared magnitude.  (Over the
real-number embedding the non-finite case of the source's check has no
inhabitant: JavaScript evaluations producing Infinity/NaN from a vanishing
denominator appear here as `calcMagSquared = 0`, which the first case
floors.) -/
theorem C2_degenerate_floors_to_minus_100 (freq fc gainDb q : ℝ) (filterTypeStr : String)
    (sampleRate : ℝ) :
    (calcMagSquared freq fc gainDb q filterTypeStr sampleRate ≤ 0 →
      calcBiquadMagnitudeDb freq fc gainDb q filterTypeStr sampleRate = -100)
    ∧ (0 < calcMagSquared freq fc gainDb q filterTypeStr sampleRate →
      calcBiquadMagnitudeDb freq fc gainDb q filterTypeStr sampleRate
        = 10 * Real.logb 10 (calcMagSquared freq fc gainDb q filterTypeStr sampleRate)) := by
  constructor
  · intro h
    simp only [calcBiquadMagnitudeDb]
    rw [if_pos h]
  · intro h
    simp only [calcBiquadMagnitudeDb]
    rw [if_neg (not_le.mpr h)]

/-- Witness for C2 at a concrete input: a peaking filter evaluated at its own
center frequency has squared magnitude `A⁴ > 0`, so the non-floor branch is
taken. -/
theorem C2_degenerate_floor_witness :
    0 < calcMagSquared 20 20 6 1 "peaking" 48000
    ∧ calcBiquadMagnitudeDb 20 20 6 1 "peaking" 48000
      = 10 * Real.logb 10 (calcMagSquared 20 20 6 1 "peaking" 48000) := by
  have hpos : 0 < calcMagSquared 20 20 6 1 "peaking" 48000 := by
    rw [calcMagSquared_peaking_center 20 6 1 48000 (by norm_num) (by norm_num) (by norm_num)
      (by norm_num)]
    exact pow_pos (Real.rpow_pos_of_pos (by norm_num) _) 4
  exact ⟨hpos, (C2_degenerate_floors_to_minus_100 20 20 6 1 "peaking" 48000).2 hpos⟩

/-- The first grid point is exactly 20 Hz: `10^(log10 20)` = 20. -/
lemma gridFreq_zero : gridFreq 0 = 20 := by
  rw [gridFreq]
  norm_num
  rw [LOG_MIN_FREQUENCY, MIN_AUDIBLE_FREQUENCY_HZ]
  exact Real.rpow_logb (by norm_num) (by norm_num) (by norm_num)

/-- 20 Hz is on the frequency grid. -/
lemma twenty_mem_frequencies : (20 : ℝ) ∈ FREQUENCIES := by
  rw [FREQUENCIES]
  exact List.mem_map.mpr ⟨0, by simp [FREQUENCY_GRAPH_POINTS], gridFreq_zero⟩

/-- Every member of a list is at most its `listMax`. -/
lemma le_listMax_of_mem (x : ℝ) (l : List ℝ) (hx : x ∈ l) : x ≤ listMax l := by
  cases l with
  | nil => cases hx
  | cons y ys =>
    rcases List.mem_cons.mp hx with h | h
    · subst h
      exact le_foldl_max ys x
    · exact mem_le_foldl_max ys y x h

/-- `calculatePeakGain` undershoots the raw grid maximum by at most 1/20. -/
lemma calculatePeakGain_ge (bands : List ParametricBand) (preamp sampleRate : ℝ) :
    specGridPeak bands preamp sampleRate - 1 / 20
      ≤ calculatePeakGain bands preamp sampleRate := by
  have h := round_div_ten_close (specGridPeak bands preamp sampleRate)
  rw [calculatePeakGain_eq_round_specGridPeak]
  have habs := abs_le.mp h
  linarith [habs.1]

/-- The disabled 100 dB peaking band at 20 Hz used against claim C5. -/
def c5DisabledBand : ParametricBand := ⟨"b1", "peaking", 20, 100, 1, false⟩

/-- The same band with `enabled := true`. -/
def c5EnabledBand : ParametricBand := ⟨"b1", "peaking", 20, 100, 1, true⟩

/-- The spec-side grid maximum with the single 100 dB band at 20 Hz is at
least 100: the grid contains 20 Hz, where the peaking band contributes
exactly its gain. -/
lemma c5_specGridPeak_ge :
    (100 : ℝ) ≤ specGridPeak [c5DisabledBand] 0 48000 := by
  have hcenter : calcBiquadMagnitudeDb 20 20 100 1 "peaking" 48000 = 100 :=
    calcBiquad_peaking_center 20 100 1 48000 (by norm_num) (by norm_num) (by norm_num)
      (by norm_num)
  have hmem : (100 : ℝ) ∈ FREQUENCIES.map (fun freq =>
      (0 : ℝ) + ([c5DisabledBand].map (fun b =>
        calcBiquadMagnitudeDb freq b.frequency b.gain b.q_factor b.filter_type 48000)).sum) := by
    refine List.mem_map.mpr ⟨20, twenty_mem_frequencies, ?_⟩
    show (0 : ℝ) + (calcBiquadMagnitudeDb 20 c5DisabledBand.frequency c5DisabledBand.gain
      c5DisabledBand.q_factor c5DisabledBand.filter_type 48000 + 0) = 100
    show (0 : ℝ) + (calcBiquadMagnitudeDb 20 20 100 1 "peaking" 48000 + 0) = 100
    rw [hcenter]
    norm_num
  exact le_listMax_of_mem 100 _ hmem

/-- C5 (counterexample): as stated the claim fails for the peak gain.  The
band's `enabled` flag is ignored by `calculatePeakGain` (the disabled and
enabled versions give the same peak), and the disabled band does contribute:
with it the peak is at least 99.95 dB while without any band it is 0. -/
theorem C5_counterexample_disabled_contributes :
    calculatePeakGain [c5DisabledBand] 0 48000 = calculatePeakGain [c5EnabledBand] 0 48000
    ∧ calculatePeakGain [c5DisabledBand] 0 48000 ≠ calculatePeakGain [] 0 48000 := by
  constructor
  · rfl
  · have h1 : (100 : ℝ) - 1 / 20 ≤ calculatePeakGain [c5DisabledBand] 0 48000 :=
      le_trans (by linarith [c5_specGridPeak_ge]) (calculatePeakGain_ge [c5DisabledBand] 0 48000)
    have h2 : calculatePeakGain [] 0 48000 = 0 := by
      rw [calculatePeakGain_eq_round_specGridPeak, specGridPeak_nil]
      norm_num
    intro heq
    rw [heq, h2] at h1
    norm_num at h1

/-- A fold that skips elements failing `p` equals the same fold over the
`p`-filtered list. -/
lemma foldl_skip_eq_foldl_filter {α : Type} (p : α → Bool) (g : ℝ → α → ℝ) :
    ∀ (l : List α) (a : ℝ),
    l.foldl (fun acc b => if p b then g acc b else acc) a
      = (l.filter p).foldl (fun acc b => if p b then g acc b else acc) a := by
  intro l
  induction l with
  | nil => intro a; rfl
  | cons x xs ih =>
    intro a
    by_cases h : p x
    · simp only [List.foldl_cons, List.filter_cons, h, if_pos, if_true]
      exact ih (g a x)
    · simp only [List.foldl_cons, List.filter_cons, h, if_neg, Bool.false_eq_true, if_false]
      exact ih a

/-- C5 (amended): in the frequency-response curve (`useFrequencyResponse`,
src/components/eq-graph.tsx) only enabled bands contribute — filtering out
the disabled bands leaves every per-frequency sum unchanged — but
`calculatePeakGain` (src/lib/audio-math.ts) ignores the `enabled` flag
entirely: rewriting every band's flag arbitrarily never changes the peak
gain, so a disabled band contributes to the peak exactly like an enabled
one. -/
theorem C5_enabled_only_filters_curve_not_peak :
    (∀ (bands : List ParametricBand) (preamp sampleRate : ℝ),
      useFrequencyResponse bands preamp sampleRate
        = useFrequencyResponse (bands.filter (fun b => b.enabled)) preamp sampleRate)
    ∧ (∀ (bands : List ParametricBand) (preamp sampleRate : ℝ) (f : ParametricBand → Bool),
      calculatePeakGain (bands.map (fun b =>
          ⟨b.id, b.filter_type, b.frequency, b.gain, b.q_factor, f b⟩)) preamp sampleRate
        = calculatePeakGain bands preamp sampleRate) := by
  constructor
  · intro bands preamp sampleRate
    rw [useFrequencyResponse, useFrequencyResponse]
    apply List.map_congr_left
    intro freq _
    exact foldl_skip_eq_foldl_filter (fun b => b.enabled)
      (fun acc b =>
        acc + calcBiquadMagnitudeDb freq b.frequency b.gain b.q_factor b.filter_type sampleRate)
      bands preamp
  · intro bands preamp sampleRate f
    have h : ∀ freq : ℝ,
        totalDbAt (bands.map (fun b =>
          (⟨b.id, b.filter_type, b.frequency, b.gain, b.q_factor, f b⟩ : ParametricBand)))
            preamp freq sampleRate
          = totalDbAt bands preamp freq sampleRate := by
      intro freq
      rw [totalDbAt, totalDbAt, List.foldl_map]
    rw [calculatePeakGain, calculatePeakGain, peakLoopMax, peakLoopMax]
    simp only [h]
